import Mathlib

/-!
Verification of the nxp-simtemp CLI test harness (the `user/cli` part of the
repository).  The pure components — the sample codec `parse_sample` of
`print_samples.py`, the stats parser `_parse_stats` of `test_mode.py`, the
mode setter `set_mode` of `configuration.py` — are embedded directly.  The
effectful test cases TP1, TP2, TP5, TP6 and the suite runner
`run_all_tests` of `test_mode.py` are embedded as pure functions over
explicit environments that supply, in program order, the results of every
external call the Python code makes (sysfs reads and writes, `poll`,
device reads, `os.open`).
-/

-- Constants from config_file.py and test_mode.py.
def TEST_PASS_CODE : Int := 0

def TEST_FAIL_CODE : Int := -1

def SAMPLE_SIZE_BYTES : Nat := 16

-- TP1_EXPECTED_COUNT_FAST = int(1.0 * 1000 / 100) and
-- TP1_EXPECTED_COUNT_SLOW = int(10.0 * 1000 / 1000) in test_mode.py.
def TP1_EXPECTED_COUNT_FAST : Int := 10

def TP1_EXPECTED_COUNT_SLOW : Int := 10

def TP1_TOLERANCE : Int := 1

def TP1_COHERENCE_READS : Nat := 3

def TP2_EXPECTED_ALERTS : Nat := 2

def TP6_RAMP_SAMPLES : Nat := 5

def TP6_NOISY_SAMPLES : Nat := 20

def TP6_NOISY_MAX_CONSECUTIVE : Nat := 2

-- Linux errno values used by TP5 (errno.EINVAL, errno.ESPIPE).
def EINVAL : Nat := 22

def ESPIPE : Nat := 29

/-!
Sample codec (`print_samples.parse_sample` with `SAMPLE_FORMAT = "<QiI"`).
Raw device bytes are modelled as `List Nat` (one entry per byte).
-/

-- Little-endian value of a byte list: first byte is least significant.
def le_bytes (bs : List Nat) : Nat :=
  bs.foldr (fun b acc => b + 256 * acc) 0

-- Two's-complement reading of a 32-bit unsigned value, as struct code "i".
def toSigned32 (n : Nat) : Int :=
  if n < 2 ^ 31 then (n : Int) else (n : Int) - 2 ^ 32

-- struct.unpack("<QiI", raw): 8-byte unsigned, 4-byte signed, 4-byte
-- unsigned, all little-endian.  struct.error (None here) occurs exactly
-- when the input is not 16 bytes long.
def struct_unpack_QiI (raw : List Nat) : Option (Nat × Int × Nat) :=
  if raw.length = 16 then
    some (le_bytes (raw.take 8),
          toSigned32 (le_bytes ((raw.drop 8).take 4)),
          le_bytes (raw.drop 12))
  else none

-- parse_sample: explicit length gate, then struct.unpack.
def parse_sample (raw : List Nat) : Option (Nat × Int × Nat) :=
  if raw.length ≠ SAMPLE_SIZE_BYTES then none
  else struct_unpack_QiI raw

/-!
Stats parser (`test_mode._parse_stats`).  Python string operations are
modelled structurally over `List Char` so that everything evaluates by
kernel reduction: `str.split()` (whitespace, empties discarded),
`str.split('=')` (empties kept), and `int(str)` (strip, optional sign,
digits with single internal underscores).
-/

def splitWsAux : List Char → List (List Char) → List Char → List (List Char)
  | cur, acc, [] => if cur.isEmpty then acc.reverse else (cur.reverse :: acc).reverse
  | cur, acc, c :: rest =>
    if c.isWhitespace then
      if cur.isEmpty then splitWsAux [] acc rest
      else splitWsAux [] (cur.reverse :: acc) rest
    else splitWsAux (c :: cur) acc rest

-- Python str.split() with no arguments.
def pySplitWs (s : String) : List String :=
  (splitWsAux [] [] s.toList).map List.asString

def splitSepAux (sep : Char) : List Char → List (List Char) → List Char → List (List Char)
  | cur, acc, [] => (cur.reverse :: acc).reverse
  | cur, acc, c :: rest =>
    if c = sep then splitSepAux sep [] (cur.reverse :: acc) rest
    else splitSepAux sep (c :: cur) acc rest

-- Python str.strip() as used by int(): drop leading/trailing whitespace.
def stripChars (cs : List Char) : List Char :=
  ((cs.dropWhile Char.isWhitespace).reverse.dropWhile Char.isWhitespace).reverse

def pyIntLoop : Nat → List Char → Option Nat
  | acc, [] => some acc
  | acc, c :: rest =>
    if c = '_' then
      match rest with
      | [] => none
      | d :: rest2 => if d.isDigit then pyIntLoop (10 * acc + (d.toNat - 48)) rest2 else none
    else if c.isDigit then pyIntLoop (10 * acc + (c.toNat - 48)) rest
    else none

def pyIntDigits : List Char → Option Nat
  | [] => none
  | c :: rest => if c.isDigit then pyIntLoop (c.toNat - 48) rest else none

-- Python int(str): strip whitespace, optional single sign, digit string.
def pyIntChars (cs : List Char) : Option Int :=
  match stripChars cs with
  | '+' :: rest => (pyIntDigits rest).map (fun n => (n : Int))
  | '-' :: rest => (pyIntDigits rest).map (fun n => -(n : Int))
  | other => (pyIntDigits other).map (fun n => (n : Int))

-- One `key=value` token: `key, value = part.split('=')` requires exactly
-- two pieces; `int(value)` must parse.  Any failure raises (None here).
def parseToken (part : String) : Option (String × Int) :=
  match splitSepAux '=' [] [] part.toList with
  | [k, v] => (pyIntChars v).map (fun n => (k.asString, n))
  | _ => none

-- The initial dict {'updates': -1, 'alerts': -1, 'errors': -1}.
def initStats : List (String × Int) := [("updates", -1), ("alerts", -1), ("errors", -1)]

-- Python dict assignment `d[k] = v`: update in place, append if new.
def dictSet : List (String × Int) → String → Int → List (String × Int)
  | [], k, v => [(k, v)]
  | (k0, v0) :: rest, k, v =>
    if k0 == k then (k0, v) :: rest else (k0, v0) :: dictSet rest k v

def dictGet (d : List (String × Int)) (k : String) : Option Int :=
  (d.find? (fun p => p.1 == k)).map (fun p => p.2)

-- The token loop of _parse_stats: on the first token that raises, the
-- except-handler resets the whole dict to the sentinel dict and returns.
def statsGo : List (String × Int) → List String → List (String × Int)
  | st, [] => st
  | st, p :: rest =>
    match parseToken p with
    | some kv => statsGo (dictSet st kv.1 kv.2) rest
    | none => initStats

-- _parse_stats(stats_str): None input also yields the sentinel dict.
def parse_stats : Option String → List (String × Int)
  | none => initStats
  | some s => statsGo initStats (pySplitWs s)

-- stats['updates'] (the key is always present in the dict).
def statUpdates (d : List (String × Int)) : Int :=
  (dictGet d "updates").getD (-1)

/-!
Mode setter (`configuration.set_mode`).  The filesystem is an oracle
`fsOk path value` giving the success of the underlying sysfs write; the
observable actions (warning print, file write) are recorded as effects.
-/

def valid_modes : List String := ["normal", "noisy", "ramp"]

def MODE_PATH : String := "/sys/class/misc/simtemp/mode"

inductive ConfEffect
  | warnInvalidMode (mode : String)
  | sysfsWrite (path : String) (content : String)
deriving DecidableEq

-- set_config_value(path, value): writes value + '\n', reports success.
def set_config_value (fsOk : String → String → Bool) (path value : String) :
    Bool × List ConfEffect :=
  (fsOk path value, [ConfEffect.sysfsWrite path (value ++ "\n")])

-- set_mode(mode): an unrecognized mode only warns; the write always runs.
def set_mode (fsOk : String → String → Bool) (mode : String) : Bool × List ConfEffect :=
  let warn : List ConfEffect :=
    if valid_modes.contains mode then [] else [ConfEffect.warnInvalidMode mode]
  let w := set_config_value fsOk MODE_PATH mode
  (w.1, warn ++ w.2)

/-!
TP5 (`_test_api_contract_offset`): open the device, `os.pread` at offset 1.
The environment gives the outcomes of `os.open` (with its errno on
failure, since the except-clause inspects errno no matter which call
raised) and of the pread.
-/

inductive PreadResult
  | bytes (data : List Nat)
  | osErr (e : Nat)
deriving DecidableEq

structure TP5Env where
  openOk : Bool
  openErrno : Nat
  pread : PreadResult
deriving DecidableEq

def tp5 (env : TP5Env) : Bool :=
  if env.openOk then
    match env.pread with
    | .bytes data => data.length == 0
    | .osErr e => e == EINVAL || e == ESPIPE
  else env.openErrno == EINVAL || env.openErrno == ESPIPE

/-!
TP6 (`_test_mode_behavior`): the ramp and noisy sub-check loops.  Each
loop iteration consumes one event: a poll timeout, a failed
`_read_sample`, or a successfully parsed sample `(ts, temp, flags)`.
The ramp loop stops after `TP6_RAMP_SAMPLES` samples, the noisy loop
after `TP6_NOISY_SAMPLES`; both break out on the first failure, so each
processes at most that many events.
-/

inductive TP6Event
  | timeout
  | readFail
  | sample (s : Nat × Int × Nat)
deriving DecidableEq

-- Ramp loop body: `last_temp_mc` starts at -inf (none); from the second
-- sample on, wraparound heuristic first, then `current <= last` fails.
def ramp_ok_after : Option Int → List TP6Event → Bool
  | _, [] => true
  | last, e :: rest =>
    match e with
    | .timeout => false
    | .readFail => false
    | .sample s =>
      let t := s.2.1
      match last with
      | none => ramp_ok_after (some t) rest
      | some l =>
        if 99000 < l ∧ t < 1000 then ramp_ok_after (some t) rest
        else if t ≤ l then false
        else ramp_ok_after (some t) rest

def tp6_ramp (events : List TP6Event) : Bool :=
  ramp_ok_after none (events.take TP6_RAMP_SAMPLES)

-- Noisy loop body: from the second sample on, the consecutive-equal
-- counter is incremented or reset, then checked against the maximum.
def noisy_ok_after : Option Int → Nat → List TP6Event → Bool
  | _, _, [] => true
  | last, count, e :: rest =>
    match e with
    | .timeout => false
    | .readFail => false
    | .sample s =>
      let t := s.2.1
      match last with
      | none => noisy_ok_after (some t) count rest
      | some l =>
        let c := if t = l then count + 1 else 0
        if TP6_NOISY_MAX_CONSECUTIVE ≤ c then false
        else noisy_ok_after (some t) c rest

def tp6_noisy (events : List TP6Event) : Bool :=
  noisy_ok_after none 0 (events.take TP6_NOISY_SAMPLES)

-- A run of three equal consecutive entries somewhere in the list.
def has3 : List Int → Bool
  | a :: b :: c :: rest => (a == b && b == c) || has3 (b :: c :: rest)
  | _ => false

/-!
TP1 (`_test_periodic_read`).  The environment supplies the results of the
external calls in program order.  Crucial Python detail: the `finally`
block ends in `return passed`, which overrides any `return False`
executed inside the `try` block, and the restore write
`conf.set_sampling_ms(original_sampling)` in the `finally` block has its
result discarded — hence the `restoreMidOk`/`restoreOk` fields are never
consulted, and the early-abort paths return the current `passed` value
(still True before any check has failed).
-/

inductive CohEvent
  | timeout
  | readFail
  | readSample (s : Nat × Int × Nat)
deriving DecidableEq

-- The TP1 data-coherence loop: up to TP1_COHERENCE_READS iterations,
-- returning (read_ok_count, broke-with-failure).
def cohLoop : Nat → List CohEvent → Nat × Bool
  | 0, _ => (0, false)
  | _ + 1, [] => (0, true)
  | n + 1, e :: rest =>
    match e with
    | .timeout => (0, true)
    | .readFail => (0, true)
    | .readSample _ =>
      let r := cohLoop n rest
      (r.1 + 1, r.2)

structure TP1Env where
  getSampling : Option Int
  setFast : Bool
  statsFast0 : Option String
  statsFast1 : Option String
  cohOpenOk : Bool
  cohEvents : List CohEvent
  setSlow : Bool
  statsSlow0 : Option String
  statsSlow1 : Option String
  restoreMidOk : Bool
  restoreOk : Bool

def tp1 (env : TP1Env) : Bool :=
  match env.getSampling with
  | none => true
  | some _ =>
    if env.setFast = false then true
    else
      let u0 := statUpdates (parse_stats env.statsFast0)
      if u0 < 0 then true
      else
        let u1 := statUpdates (parse_stats env.statsFast1)
        if u1 < 0 then true
        else
          let passedFast : Bool :=
            if |u1 - u0 - TP1_EXPECTED_COUNT_FAST| ≤ TP1_TOLERANCE then true else false
          let coh := if env.cohOpenOk then cohLoop TP1_COHERENCE_READS env.cohEvents else (0, true)
          let p2 : Bool := if coh.2 then false else passedFast
          let p3 : Bool := if coh.1 = TP1_COHERENCE_READS then p2 else false
          if env.setSlow = false then p3
          else
            let v0 := statUpdates (parse_stats env.statsSlow0)
            if v0 < 0 then p3
            else
              let v1 := statUpdates (parse_stats env.statsSlow1)
              if v1 < 0 then p3
              else if |v1 - v0 - TP1_EXPECTED_COUNT_SLOW| ≤ TP1_TOLERANCE then p3 else false

/-!
TP2 (`_test_threshold_event`).  `passed` starts False; the alert loop
counts POLLPRI events up to TP2_EXPECTED_ALERTS, failing explicitly on
the overall timeout or a device error.  The `finally` block checks the
restore write: failure forces `passed = False`.
-/

inductive TP2Event
  | timedOut
  | noEvents
  | alert
  | deviceError
deriving DecidableEq

def tp2Loop : Nat → List TP2Event → Nat × Bool
  | count, [] => if TP2_EXPECTED_ALERTS ≤ count then (count, false) else (count, true)
  | count, e :: rest =>
    if TP2_EXPECTED_ALERTS ≤ count then (count, false)
    else
      match e with
      | .timedOut => (count, true)
      | .noEvents => tp2Loop count rest
      | .alert => tp2Loop (count + 1) rest
      | .deviceError => (count, true)

structure TP2Env where
  getThreshold : Option Int
  setAlert : Bool
  openOk : Bool
  events : List TP2Event
  restoreOk : Bool

def tp2 (env : TP2Env) : Bool :=
  match env.getThreshold with
  | none => false
  | some _ =>
    let body : Bool :=
      if env.setAlert = false then false
      else if env.openOk = false then false
      else
        let r := tp2Loop 0 env.events
        if r.2 = false ∧ TP2_EXPECTED_ALERTS ≤ r.1 then true else false
    if env.restoreOk then body else false

/-!
Suite runner (`run_all_tests`).  Precondition checks (euid 0, device node
and sysfs mode path present) abort with the fail code before any test
runs.  Otherwise the six tests run in the listed order; an exception
escaping a test function is recorded as that test's failure, and the
loop continues.  The exit code is PASS exactly when every recorded
outcome is a pass.
-/

inductive TestResult
  | ok (passed : Bool)
  | raised
deriving DecidableEq

def recordOutcome : TestResult → Bool
  | .ok b => b
  | .raised => false

structure SuiteEnv where
  euidIsRoot : Bool
  devNodeExists : Bool
  modePathExists : Bool
  tp1Res : TestResult
  tp2Res : TestResult
  tp3Res : TestResult
  tp4Res : TestResult
  tp5Res : TestResult
  tp6Res : TestResult

def suiteResults (env : SuiteEnv) : List (String × Bool) :=
  [("PERIODIC_READ", recordOutcome env.tp1Res),
   ("THRESHOLD_EVENT", recordOutcome env.tp2Res),
   ("SYSFS_LIMITS", recordOutcome env.tp3Res),
   ("CONCURRENCY", recordOutcome env.tp4Res),
   ("API_CONTRACT_OFFSET", recordOutcome env.tp5Res),
   ("MODE_BEHAVIOR", recordOutcome env.tp6Res)]

def run_all_tests (env : SuiteEnv) : Int × List (String × Bool) :=
  if env.euidIsRoot = false then (TEST_FAIL_CODE, [])
  else if env.devNodeExists = false ∨ env.modePathExists = false then (TEST_FAIL_CODE, [])
  else
    let results := suiteResults env
    (if results.all (fun r => r.2) then TEST_PASS_CODE else TEST_FAIL_CODE, results)

/-!
Theorems.
-/

/-- C1 counterexample: a TP1 run in which every check passes but the
teardown restore write `conf.set_sampling_ms(original_sampling)` reports
failure still returns True — TP1's `finally` block discards the restore
result, so a restore failure does not force the outcome to failed. -/
theorem tp1_restore_failure_still_passes :
    tp1 { getSampling := some 500, setFast := true,
          statsFast0 := some "updates=100 alerts=0 errors=0",
          statsFast1 := some "updates=110 alerts=0 errors=0",
          cohOpenOk := true,
          cohEvents := [CohEvent.readSample (1, 25000, 1), CohEvent.readSample (2, 25100, 1),
                        CohEvent.readSample (3, 25200, 1)],
          setSlow := true,
          statsSlow0 := some "updates=200 alerts=0 errors=0",
          statsSlow1 := some "updates=210 alerts=0 errors=0",
          restoreMidOk := true, restoreOk := false } = true := by decide

/-- C1 (amended): restoration-failure handling is per-test.  In TP2, once
the original threshold has been captured, a failing restore write in the
teardown forces the returned outcome to False regardless of the body's
verdict; in TP1 the teardown performs the restore write but ignores its
result, so the returned outcome is independent of the restore result. -/
theorem restore_failure_outcomes :
    (∀ (e2 : TP2Env) (t : Int), e2.getThreshold = some t → e2.restoreOk = false →
      tp2 e2 = false) ∧
    (∀ (e1 : TP1Env) (b : Bool), tp1 e1 = tp1 { e1 with restoreOk := b }) := by
  constructor
  · intro e2 t h hr
    unfold tp2
    rw [h, hr]
    simp
  · intro e1 b
    cases e1
    rfl

/-- Witness for `restore_failure_outcomes` at concrete environments. -/
theorem restore_failure_outcomes_witness :
    tp2 { getThreshold := some 23000, setAlert := true, openOk := true,
          events := [TP2Event.alert, TP2Event.alert], restoreOk := false } = false ∧
    tp1 { getSampling := some 500, setFast := false, statsFast0 := none, statsFast1 := none,
          cohOpenOk := false, cohEvents := [], setSlow := false, statsSlow0 := none,
          statsSlow1 := none, restoreMidOk := true, restoreOk := true } =
      tp1 { getSampling := some 500, setFast := false, statsFast0 := none, statsFast1 := none,
            cohOpenOk := false, cohEvents := [], setSlow := false, statsSlow0 := none,
            statsSlow1 := none, restoreMidOk := true, restoreOk := false } :=
  ⟨restore_failure_outcomes.1 _ 23000 rfl rfl,
   restore_failure_outcomes.2
     { getSampling := some 500, setFast := false, statsFast0 := none, statsFast1 := none,
       cohOpenOk := false, cohEvents := [], setSlow := false, statsSlow0 := none,
       statsSlow1 := none, restoreMidOk := true, restoreOk := true } false⟩

/-- C3: with the preconditions satisfied (root euid, device node and sysfs
mode path present), `run_all_tests` records the six test outcomes in the
fixed order TP1..TP6, an exception escaping a test is recorded as that
test's failure (`recordOutcome .raised = false`), the exit code is the
PASS code exactly when every recorded outcome is a pass, and otherwise it
is the FAIL code. -/
theorem run_all_tests_spec (env : SuiteEnv)
    (h1 : env.euidIsRoot = true) (h2 : env.devNodeExists = true)
    (h3 : env.modePathExists = true) :
    (run_all_tests env).2 =
      [("PERIODIC_READ", recordOutcome env.tp1Res),
       ("THRESHOLD_EVENT", recordOutcome env.tp2Res),
       ("SYSFS_LIMITS", recordOutcome env.tp3Res),
       ("CONCURRENCY", recordOutcome env.tp4Res),
       ("API_CONTRACT_OFFSET", recordOutcome env.tp5Res),
       ("MODE_BEHAVIOR", recordOutcome env.tp6Res)] ∧
    recordOutcome TestResult.raised = false ∧
    ((run_all_tests env).1 = TEST_PASS_CODE ↔ ∀ r ∈ (run_all_tests env).2, r.2 = true) ∧
    ((run_all_tests env).1 ≠ TEST_PASS_CODE → (run_all_tests env).1 = TEST_FAIL_CODE) := by
  have hfst : (run_all_tests env).1 =
      (if (suiteResults env).all (fun r => r.2) then TEST_PASS_CODE else TEST_FAIL_CODE) := by
    unfold run_all_tests
    rw [h1, h2, h3]
    simp
  have hsnd : (run_all_tests env).2 = suiteResults env := by
    unfold run_all_tests
    rw [h1, h2, h3]
    simp
  refine ⟨by rw [hsnd]; rfl, rfl, ?_, ?_⟩
  · rw [hfst, hsnd]
    by_cases hall : (suiteResults env).all (fun r => r.2) = true
    · simp only [hall, if_true]
      constructor
      · intro _
        exact fun r hr => List.all_eq_true.mp hall r hr
      · intro _
        trivial
    · rw [Bool.not_eq_true] at hall
      simp only [hall, Bool.false_eq_true, if_false]
      constructor
      · intro habs
        exact absurd habs (by decide)
      · intro hf
        have hx : (suiteResults env).all (fun r => r.2) = true := List.all_eq_true.mpr hf
        rw [hall] at hx
        exact absurd hx (by decide)
  · rw [hfst]
    by_cases hall : (suiteResults env).all (fun r => r.2) = true
    · intro hne
      simp only [hall, if_true] at hne
      exact absurd rfl hne
    · rw [Bool.not_eq_true] at hall
      intro _
      simp only [hall, Bool.false_eq_true, if_false]

/-- Witness for `run_all_tests_spec`: a suite run whose fourth test raised
yields FAIL, and the PASS-iff-all-outcomes-pass equivalence holds. -/
theorem run_all_tests_spec_witness :
    (run_all_tests { euidIsRoot := true, devNodeExists := true, modePathExists := true,
                     tp1Res := TestResult.ok true, tp2Res := TestResult.ok true,
                     tp3Res := TestResult.ok true, tp4Res := TestResult.raised,
                     tp5Res := TestResult.ok true, tp6Res := TestResult.ok true }).1 =
        TEST_PASS_CODE ↔
      ∀ r ∈ (run_all_tests { euidIsRoot := true, devNodeExists := true, modePathExists := true,
                             tp1Res := TestResult.ok true, tp2Res := TestResult.ok true,
                             tp3Res := TestResult.ok true, tp4Res := TestResult.raised,
                             tp5Res := TestResult.ok true, tp6Res := TestResult.ok true }).2,
        r.2 = true :=
  (run_all_tests_spec _ rfl rfl rfl).2.2.1

/-- C6: with the device opened successfully, TP5 returns pass exactly when
the pread at offset 1 returned zero bytes or raised an OS error with
errno EINVAL or ESPIPE; returned data or any other errno yields fail. -/
theorem tp5_offset_contract (env : TP5Env) (h : env.openOk = true) :
    tp5 env = true ↔
      (env.pread = PreadResult.bytes [] ∨ env.pread = PreadResult.osErr EINVAL ∨
       env.pread = PreadResult.osErr ESPIPE) := by
  unfold tp5
  rw [h]
  cases hp : env.pread with
  | bytes data =>
    simp [List.length_eq_zero]
  | osErr e =>
    simp [EINVAL, ESPIPE]

/-- Witness for `tp5_offset_contract`: zero bytes read at offset 1 passes. -/
theorem tp5_offset_contract_witness :
    tp5 { openOk := true, openErrno := 0, pread := PreadResult.bytes [] } = true :=
  (tp5_offset_contract _ rfl).mpr (Or.inl rfl)

/-- C10: `set_mode` attempts the sysfs write for every input string: its
return value always equals the success of the underlying write of
`mode + "\n"` to the mode attribute, and an unrecognized mode string only
adds a warning message before the write. -/
theorem set_mode_always_writes (fsOk : String → String → Bool) (mode : String) :
    (set_mode fsOk mode).1 = fsOk MODE_PATH mode ∧
    ConfEffect.sysfsWrite MODE_PATH (mode ++ "\n") ∈ (set_mode fsOk mode).2 ∧
    (valid_modes.contains mode = false →
      ConfEffect.warnInvalidMode mode ∈ (set_mode fsOk mode).2) := by
  refine ⟨rfl, ?_, ?_⟩
  · simp [set_mode, set_config_value]
  · intro h
    have h' : mode ∉ valid_modes := by simpa using h
    simp [set_mode, set_config_value, h']

/-- Witness for `set_mode_always_writes` at the unrecognized mode "bogus". -/
theorem set_mode_always_writes_witness :
    (set_mode (fun _ _ => true) "bogus").1 = (fun _ _ => true) MODE_PATH "bogus" ∧
    ConfEffect.sysfsWrite MODE_PATH ("bogus" ++ "\n") ∈ (set_mode (fun _ _ => true) "bogus").2 ∧
    ConfEffect.warnInvalidMode "bogus" ∈ (set_mode (fun _ _ => true) "bogus").2 :=
  ⟨(set_mode_always_writes _ "bogus").1, (set_mode_always_writes _ "bogus").2.1,
   (set_mode_always_writes _ "bogus").2.2 (by decide)⟩

/-- Helper: a list of length n+1 splits off a head element. -/
theorem cons_of_length {α : Type} (l : List α) (n : Nat) (h : l.length = n + 1) :
    ∃ x xs, l = x :: xs ∧ xs.length = n := by
  cases l with
  | nil => simp at h
  | cons x xs => exact ⟨x, xs, rfl, by simpa using h⟩

/-- C4: `parse_sample` returns None exactly on inputs whose length is not
16, and on a 16-byte input returns the little-endian decode: the 8-byte
unsigned timestamp from bytes 0-7, the 4-byte two's-complement signed
temperature from bytes 8-11, and the 4-byte unsigned flags from bytes
12-15, each byte i weighted by 256^i within its field. -/
theorem parse_sample_spec (raw : List Nat) :
    parse_sample raw =
      if raw.length = 16 then
        some (∑ i in Finset.range 8, raw.getD i 0 * 256 ^ i,
              toSigned32 (∑ i in Finset.range 4, raw.getD (8 + i) 0 * 256 ^ i),
              ∑ i in Finset.range 4, raw.getD (12 + i) 0 * 256 ^ i)
      else none := by
  by_cases h : raw.length = 16
  · obtain ⟨b0, l0, rfl, h0⟩ := cons_of_length raw 15 h
    obtain ⟨b1, l1, rfl, h1⟩ := cons_of_length l0 14 h0
    obtain ⟨b2, l2, rfl, h2⟩ := cons_of_length l1 13 h1
    obtain ⟨b3, l3, rfl, h3⟩ := cons_of_length l2 12 h2
    obtain ⟨b4, l4, rfl, h4⟩ := cons_of_length l3 11 h3
    obtain ⟨b5, l5, rfl, h5⟩ := cons_of_length l4 10 h4
    obtain ⟨b6, l6, rfl, h6⟩ := cons_of_length l5 9 h5
    obtain ⟨b7, l7, rfl, h7⟩ := cons_of_length l6 8 h6
    obtain ⟨b8, l8, rfl, h8⟩ := cons_of_length l7 7 h7
    obtain ⟨b9, l9, rfl, h9⟩ := cons_of_length l8 6 h8
    obtain ⟨b10, l10, rfl, h10⟩ := cons_of_length l9 5 h9
    obtain ⟨b11, l11, rfl, h11⟩ := cons_of_length l10 4 h10
    obtain ⟨b12, l12, rfl, h12⟩ := cons_of_length l11 3 h11
    obtain ⟨b13, l13, rfl, h13⟩ := cons_of_length l12 2 h12
    obtain ⟨b14, l14, rfl, h14⟩ := cons_of_length l13 1 h13
    obtain ⟨b15, l15, rfl, h15⟩ := cons_of_length l14 0 h14
    rw [List.length_eq_zero] at h15
    subst h15
    have hred : parse_sample [b0,b1,b2,b3,b4,b5,b6,b7,b8,b9,b10,b11,b12,b13,b14,b15] =
        some (le_bytes [b0,b1,b2,b3,b4,b5,b6,b7], toSigned32 (le_bytes [b8,b9,b10,b11]),
              le_bytes [b12,b13,b14,b15]) := rfl
    rw [hred, if_pos h]
    refine congrArg some ?_
    refine Prod.ext ?_ (Prod.ext ?_ ?_)
    · simp [Finset.sum_range_succ, le_bytes, List.getD, List.get?]
      ring
    · refine congrArg toSigned32 ?_
      simp [Finset.sum_range_succ, le_bytes, List.getD, List.get?]
      ring
    · simp [Finset.sum_range_succ, le_bytes, List.getD, List.get?]
      ring
  · simp [parse_sample, struct_unpack_QiI, SAMPLE_SIZE_BYTES, h]

/-- C8: on any input of exactly 16 bytes the struct unpack succeeds, so
`parse_sample` never returns None for a length-16 input — the
malformed-content failure branch is unreachable there. -/
theorem parse_sample_total_on_16 (raw : List Nat) (h : raw.length = 16) :
    struct_unpack_QiI raw ≠ none ∧ parse_sample raw ≠ none := by
  constructor
  · simp [struct_unpack_QiI, h]
  · simp [parse_sample, struct_unpack_QiI, SAMPLE_SIZE_BYTES, h]

/-- Witness for `parse_sample_total_on_16` on the all-zero 16-byte input. -/
theorem parse_sample_total_on_16_witness :
    struct_unpack_QiI (List.replicate 16 0) ≠ none ∧
    parse_sample (List.replicate 16 0) ≠ none :=
  parse_sample_total_on_16 _ rfl

/-- Helper: if any token in the list fails to parse, the stats loop
returns the sentinel dict, whatever was accumulated before. -/
theorem statsGo_fail (parts : List String) (st : List (String × Int))
    (h : ∃ t ∈ parts, parseToken t = none) :
    statsGo st parts = initStats := by
  induction parts generalizing st with
  | nil => simp at h
  | cons p rest ih =>
    obtain ⟨t, ht, hn⟩ := h
    rcases List.mem_cons.mp ht with rfl | hmem
    · simp only [statsGo, hn]
    · cases hp : parseToken p with
      | none => simp only [statsGo, hp]
      | some kv =>
        simp only [statsGo, hp]
        exact ih _ ⟨t, hmem, hn⟩

/-- C7: if the stats string contains any unparseable token (not exactly
one '=', or a non-integer value), `_parse_stats` returns the sentinel
dict with updates, alerts and errors all -1, regardless of any parseable
tokens elsewhere; a missing (None) input string yields the same sentinel
dict. -/
theorem parse_stats_unparseable_sentinel (s : String)
    (h : ∃ t ∈ pySplitWs s, parseToken t = none) :
    parse_stats (some s) = initStats ∧ parse_stats none = initStats :=
  ⟨statsGo_fail _ _ h, rfl⟩

/-- Witness for `parse_stats_unparseable_sentinel`: the token "junk"
resets everything even though "updates=5" parsed before it. -/
theorem parse_stats_unparseable_sentinel_witness :
    parse_stats (some "updates=5 junk alerts=2") = initStats ∧
    parse_stats none = initStats :=
  parse_stats_unparseable_sentinel _ ⟨"junk", by decide, by decide⟩

/-- Helper: looking up the key just set. -/
theorem dictGet_dictSet_eq (d : List (String × Int)) (k : String) (v : Int) :
    dictGet (dictSet d k v) k = some v := by
  induction d with
  | nil => simp [dictSet, dictGet, List.find?]
  | cons q rest ih =>
    obtain ⟨k1, v1⟩ := q
    cases hk : (k1 == k) with
    | true => simp [dictSet, hk, dictGet, List.find?]
    | false =>
      simp only [dictSet, hk, Bool.false_eq_true, if_false]
      simp only [dictGet, List.find?, hk] at ih ⊢
      exact ih

/-- Helper: setting one key does not change another key's lookup. -/
theorem dictGet_dictSet_ne (d : List (String × Int)) (k0 k : String) (v : Int)
    (h : (k0 == k) = false) :
    dictGet (dictSet d k0 v) k = dictGet d k := by
  induction d with
  | nil => simp [dictSet, dictGet, List.find?, h]
  | cons q rest ih =>
    obtain ⟨k1, v1⟩ := q
    cases hk : (k1 == k0) with
    | true =>
      have hk1 : (k1 == k) = false := by
        rw [beq_iff_eq] at hk
        subst hk
        exact h
      simp [dictSet, hk, dictGet, List.find?, hk1]
    | false =>
      simp only [dictSet, hk, Bool.false_eq_true, if_false]
      simp only [dictGet, List.find?] at ih ⊢
      cases hk1 : (k1 == k) with
      | true => simp [hk1]
      | false =>
        simp only [hk1]
        exact ih

/-- Helper: when every token parses, a key's final lookup is the value of
the last parsed token with that key, or the initial dict's entry if the
key never occurs (last-write-wins fold over the parsed tokens). -/
theorem statsGo_lookup (parts : List String) (st : List (String × Int)) (k : String)
    (h : ∀ t ∈ parts, (parseToken t).isSome = true) :
    dictGet (statsGo st parts) k =
      ((parts.filterMap parseToken).filter (fun p => p.1 == k)).foldl
        (fun _ p => some p.2) (dictGet st k) := by
  induction parts generalizing st with
  | nil => simp [statsGo]
  | cons p rest ih =>
    have hp := h p (List.mem_cons_self p rest)
    obtain ⟨kv, hkv⟩ := Option.isSome_iff_exists.mp hp
    have hrest : ∀ t ∈ rest, (parseToken t).isSome = true :=
      fun t ht => h t (List.mem_cons_of_mem _ ht)
    simp only [statsGo, hkv, List.filterMap_cons]
    cases hk : (kv.1 == k) with
    | true =>
      rw [List.filter_cons]
      simp only [hk, if_true, List.foldl_cons]
      rw [ih _ hrest]
      have : dictGet (dictSet st kv.1 kv.2) k = some kv.2 := by
        rw [beq_iff_eq] at hk
        subst hk
        exact dictGet_dictSet_eq st kv.1 kv.2
      rw [this]
    | false =>
      rw [List.filter_cons]
      simp only [hk, Bool.false_eq_true, if_false]
      rw [ih _ hrest, dictGet_dictSet_ne st kv.1 k kv.2 hk]

/-- C9: the sentinel reset is triggered only by an unparseable token.
When every token parses as key=integer, a key's returned entry is the
last parsed value for that key, falling back to the initial dict when
the key is absent from the input: an omitted counter therefore stays -1
while present keys report their parsed values, and a token with an
unrecognized key is simply added to the dict. -/
theorem parse_stats_key_semantics (s : String) (k : String)
    (hall : ∀ t ∈ pySplitWs s, (parseToken t).isSome = true) :
    dictGet (parse_stats (some s)) k =
      (((pySplitWs s).filterMap parseToken).filter (fun p => p.1 == k)).foldl
        (fun _ p => some p.2) (dictGet initStats k) :=
  statsGo_lookup _ _ _ hall

/-- Witness for `parse_stats_key_semantics`: in "updates=5 foo=7" every
token parses, and the omitted alerts counter keeps its -1 entry. -/
theorem parse_stats_key_semantics_witness :
    (∀ t ∈ pySplitWs "updates=5 foo=7", (parseToken t).isSome = true) ∧
    dictGet (parse_stats (some "updates=5 foo=7")) "alerts" =
      (((pySplitWs "updates=5 foo=7").filterMap parseToken).filter
        (fun p => p.1 == "alerts")).foldl (fun _ p => some p.2) (dictGet initStats "alerts") :=
  ⟨by decide, parse_stats_key_semantics _ "alerts" (by decide)⟩

/-- Helper: the ramp loop accepts any sample chain whose consecutive
temperatures each satisfy the wraparound heuristic or strictly increase. -/
theorem ramp_ok_on_chain (samples : List (Nat × Int × Nat)) (l : Int)
    (h : List.Chain (fun a b => (99000 < a ∧ b < 1000) ∨ a < b) l
           (samples.map (fun s => s.2.1))) :
    ramp_ok_after (some l) (samples.map TP6Event.sample) = true := by
  induction samples generalizing l with
  | nil => rfl
  | cons s rest ih =>
    rw [List.map_cons] at h
    cases h with
    | cons hR hchain =>
      rw [List.map_cons]
      have hstep : ramp_ok_after (some l) (TP6Event.sample s :: rest.map TP6Event.sample) =
          (if 99000 < l ∧ s.2.1 < 1000 then
            ramp_ok_after (some s.2.1) (rest.map TP6Event.sample)
          else if s.2.1 ≤ l then false
          else ramp_ok_after (some s.2.1) (rest.map TP6Event.sample)) := rfl
      rw [hstep]
      by_cases hw : 99000 < l ∧ s.2.1 < 1000
      · rw [if_pos hw]
        exact ih _ hchain
      · rw [if_neg hw, if_neg ?hle]
        · exact ih _ hchain
        case hle =>
          rcases hR with hwrap | hlt
          · exact absurd hwrap hw
          · omega

/-- C2 counterexample: five successfully read samples with non-decreasing
temperatures (the second equals the first) make the ramp sub-check fail —
the code's `current <= last` branch fails on equality, so a non-decreasing
sequence is not sufficient to pass. -/
theorem tp6_ramp_equal_sample_fails :
    tp6_ramp [TP6Event.sample (0, 100, 0), TP6Event.sample (0, 100, 0),
              TP6Event.sample (0, 200, 0), TP6Event.sample (0, 300, 0),
              TP6Event.sample (0, 400, 0)] = false := by decide

/-- C2 (amended): in TP6's ramp sub-check, a sequence of successfully read
samples passes when every consecutive pair either triggers the wraparound
heuristic (previous > 99000 and current < 1000) or strictly increases; a
sample equal to its predecessor fails the case. -/
theorem tp6_ramp_strict_increase_passes (events : List TP6Event)
    (samples : List (Nat × Int × Nat))
    (h1 : events.take TP6_RAMP_SAMPLES = samples.map TP6Event.sample)
    (h2 : (samples.map (fun s => s.2.1)).Chain'
            (fun a b => (99000 < a ∧ b < 1000) ∨ a < b)) :
    tp6_ramp events = true := by
  unfold tp6_ramp
  rw [h1]
  cases samples with
  | nil => rfl
  | cons s rest =>
    rw [List.map_cons]
    have hstep : ramp_ok_after none (TP6Event.sample s :: rest.map TP6Event.sample) =
        ramp_ok_after (some s.2.1) (rest.map TP6Event.sample) := rfl
    rw [hstep]
    rw [List.map_cons] at h2
    exact ramp_ok_on_chain rest s.2.1 h2

/-- Witness for `tp6_ramp_strict_increase_passes` on a strictly increasing
five-sample run. -/
theorem tp6_ramp_strict_increase_witness :
    tp6_ramp [TP6Event.sample (0, 0, 0), TP6Event.sample (1, 100, 0),
              TP6Event.sample (2, 200, 0), TP6Event.sample (3, 300, 0),
              TP6Event.sample (4, 400, 0)] = true :=
  tp6_ramp_strict_increase_passes _
    [(0, 0, 0), (1, 100, 0), (2, 200, 0), (3, 300, 0), (4, 400, 0)] rfl
    (by simp [List.chain'_cons])

/-- Helper: `has3` holds exactly when some index starts a run of three
equal consecutive entries. -/
theorem has3_iff_exists (l : List Int) :
    has3 l = true ↔ ∃ i, i + 2 < l.length ∧
      l.getD i 0 = l.getD (i + 1) 0 ∧ l.getD (i + 1) 0 = l.getD (i + 2) 0 := by
  induction l with
  | nil =>
    simp [has3]
  | cons a l ih =>
    rcases l with _ | ⟨b, l2⟩
    · constructor
      · intro h
        simp [has3] at h
      · rintro ⟨i, hi, -⟩
        simp at hi
    · rcases l2 with _ | ⟨c, rest⟩
      · constructor
        · intro h
          simp [has3] at h
        · rintro ⟨i, hi, -⟩
          simp at hi
      · have hunf : has3 (a :: b :: c :: rest) =
            ((a == b && b == c) || has3 (b :: c :: rest)) := rfl
        rw [hunf, Bool.or_eq_true, Bool.and_eq_true, beq_iff_eq, beq_iff_eq, ih]
        constructor
        · rintro (⟨rfl, rfl⟩ | ⟨i, hi, h1, h2⟩)
          · refine ⟨0, ?_, ?_, ?_⟩
            · simp
            · simp
            · simp
          · refine ⟨i + 1, ?_, ?_, ?_⟩
            · simp at hi ⊢
              omega
            · simpa using h1
            · simpa using h2
        · rintro ⟨i, hi, h1, h2⟩
          cases i with
          | zero =>
            left
            simp at h1 h2
            exact ⟨h1, h2⟩
          | succ j =>
            right
            refine ⟨j, ?_, ?_, ?_⟩
            · simp at hi ⊢
              omega
            · simpa using h1
            · simpa using h2

/-- Helper: no three-run in a list implies none in its tail. -/
theorem has3_tail (a : Int) (l : List Int) (h : has3 (a :: l) = false) :
    has3 l = false := by
  rcases l with _ | ⟨b, _ | ⟨c, rest⟩⟩
  · rfl
  · rfl
  · have hunf : has3 (a :: b :: c :: rest) =
        ((a == b && b == c) || has3 (b :: c :: rest)) := rfl
    rw [hunf, Bool.or_eq_false_iff] at h
    exact h.2

/-- Helper: a three-run survives dropping a head that differs from the
next element. -/
theorem has3_of_cons_ne (a b : Int) (l : List Int) (hne : b ≠ a)
    (h : has3 (a :: b :: l) = true) : has3 (b :: l) = true := by
  rcases l with _ | ⟨c, rest⟩
  · simp [has3] at h
  · have hunf : has3 (a :: b :: c :: rest) =
        ((a == b && b == c) || has3 (b :: c :: rest)) := rfl
    rw [hunf, Bool.or_eq_true] at h
    rcases h with h | h
    · rw [Bool.and_eq_true, beq_iff_eq, beq_iff_eq] at h
      exact absurd h.1.symm hne
    · exact h

/-- Helper: the noisy loop accepts any sample run whose temperature trace
(including the duplicated context encoded by the counter) has no run of
three equal consecutive readings. -/
theorem noisy_ok_no_three (samples : List (Nat × Int × Nat)) (l : Int) (c : Nat)
    (hc : c ≤ 1)
    (h : has3 ((if c = 1 then [l, l] else [l]) ++ samples.map (fun s => s.2.1)) = false) :
    noisy_ok_after (some l) c (samples.map TP6Event.sample) = true := by
  induction samples generalizing l c with
  | nil => rfl
  | cons s rest ih =>
    rw [List.map_cons]
    have hstep : noisy_ok_after (some l) c (TP6Event.sample s :: rest.map TP6Event.sample) =
        (if TP6_NOISY_MAX_CONSECUTIVE ≤ (if s.2.1 = l then c + 1 else 0) then false
         else noisy_ok_after (some s.2.1) (if s.2.1 = l then c + 1 else 0)
                (rest.map TP6Event.sample)) := rfl
    rw [hstep]
    rw [List.map_cons] at h
    by_cases ht : s.2.1 = l
    · by_cases hc1 : c = 1
      · exfalso
        rw [if_pos hc1] at h
        rw [ht] at h
        simp [has3] at h
      · have hc0 : c = 0 := by omega
        subst hc0
        rw [if_neg (by norm_num)] at h
        rw [if_pos ht]
        rw [if_neg (by norm_num [TP6_NOISY_MAX_CONSECUTIVE])]
        refine ih s.2.1 1 (by norm_num) ?_
        rw [if_pos rfl, ht]
        rw [ht] at h
        exact h
    · rw [if_neg ht, if_neg (by norm_num [TP6_NOISY_MAX_CONSECUTIVE])]
      refine ih s.2.1 0 (by norm_num) ?_
      rw [if_neg (by norm_num)]
      by_cases hc1 : c = 1
      · rw [if_pos hc1] at h
        exact has3_tail _ _ (has3_tail _ _ h)
      · rw [if_neg hc1] at h
        exact has3_tail _ _ h

/-- Helper: the noisy loop rejects any sample run whose temperature trace
contains a run of three equal consecutive readings. -/
theorem noisy_ok_false_of_three (samples : List (Nat × Int × Nat)) (l : Int) (c : Nat)
    (hc : c ≤ 1)
    (h : has3 ((if c = 1 then [l, l] else [l]) ++ samples.map (fun s => s.2.1)) = true) :
    noisy_ok_after (some l) c (samples.map TP6Event.sample) = false := by
  induction samples generalizing l c with
  | nil =>
    exfalso
    by_cases hc1 : c = 1
    · rw [if_pos hc1] at h
      simp [has3] at h
    · rw [if_neg hc1] at h
      simp [has3] at h
  | cons s rest ih =>
    rw [List.map_cons]
    have hstep : noisy_ok_after (some l) c (TP6Event.sample s :: rest.map TP6Event.sample) =
        (if TP6_NOISY_MAX_CONSECUTIVE ≤ (if s.2.1 = l then c + 1 else 0) then false
         else noisy_ok_after (some s.2.1) (if s.2.1 = l then c + 1 else 0)
                (rest.map TP6Event.sample)) := rfl
    rw [hstep]
    rw [List.map_cons] at h
    by_cases ht : s.2.1 = l
    · by_cases hc1 : c = 1
      · rw [if_pos ht, hc1]
        rw [if_pos (by norm_num [TP6_NOISY_MAX_CONSECUTIVE])]
      · have hc0 : c = 0 := by omega
        subst hc0
        rw [if_pos ht]
        rw [if_neg (by norm_num [TP6_NOISY_MAX_CONSECUTIVE])]
        refine ih s.2.1 1 (by norm_num) ?_
        rw [if_pos rfl, ht]
        rw [if_neg (by norm_num)] at h
        rw [ht] at h
        exact h
    · rw [if_neg ht, if_neg (by norm_num [TP6_NOISY_MAX_CONSECUTIVE])]
      refine ih s.2.1 0 (by norm_num) ?_
      rw [if_neg (by norm_num)]
      by_cases hc1 : c = 1
      · rw [if_pos hc1] at h
        have h2 : has3 (l :: s.2.1 :: rest.map (fun s => s.2.1)) = true := by
          rcases hx : rest.map (fun s => s.2.1) with _ | ⟨u, tail⟩
          · rw [hx] at h
            simp [has3] at h
            omega
          · rw [hx] at h ⊢
            have h' : has3 (l :: l :: s.2.1 :: u :: tail) = true := h
            have hunf : has3 (l :: l :: s.2.1 :: u :: tail) =
                ((l == l && l == s.2.1) || has3 (l :: s.2.1 :: u :: tail)) := rfl
            rw [hunf, Bool.or_eq_true] at h'
            rcases h' with hbad | hgood
            · rw [Bool.and_eq_true, beq_iff_eq, beq_iff_eq] at hbad
              exact absurd hbad.2.symm ht
            · exact hgood
        exact has3_of_cons_ne _ _ _ ht h2
      · rw [if_neg hc1] at h
        exact has3_of_cons_ne _ _ _ ht h

/-- C5: given only successfully read samples (no poll timeout, no decode
failure), TP6's noisy sub-check fails exactly when some three consecutive
samples carry an identical temperature; runs of at most two identical
readings pass. -/
theorem tp6_noisy_iff_three_run (events : List TP6Event) (samples : List (Nat × Int × Nat))
    (h : events.take TP6_NOISY_SAMPLES = samples.map TP6Event.sample) :
    (tp6_noisy events = false ↔ ∃ i, i + 2 < samples.length ∧
      (samples.map (fun s => s.2.1)).getD i 0 = (samples.map (fun s => s.2.1)).getD (i + 1) 0 ∧
      (samples.map (fun s => s.2.1)).getD (i + 1) 0 =
        (samples.map (fun s => s.2.1)).getD (i + 2) 0) := by
  have key : tp6_noisy events = false ↔ has3 (samples.map (fun s => s.2.1)) = true := by
    unfold tp6_noisy
    rw [h]
    cases samples with
    | nil => simp [noisy_ok_after, has3]
    | cons s rest =>
      rw [List.map_cons, List.map_cons]
      have hstep : noisy_ok_after none 0 (TP6Event.sample s :: rest.map TP6Event.sample) =
          noisy_ok_after (some s.2.1) 0 (rest.map TP6Event.sample) := rfl
      rw [hstep]
      constructor
      · intro hfalse
        by_contra hh
        rw [Bool.not_eq_true] at hh
        have hp := noisy_ok_no_three rest s.2.1 0 (by norm_num) hh
        rw [hp] at hfalse
        exact absurd hfalse (by decide)
      · intro hthree
        exact noisy_ok_false_of_three rest s.2.1 0 (by norm_num) hthree
  rw [key, has3_iff_exists, List.length_map]

/-- Witness for `tp6_noisy_iff_three_run`: the trace 1,2,2,2,3 has a
three-run at index 1 and the sub-check fails. -/
theorem tp6_noisy_iff_three_run_witness :
    tp6_noisy [TP6Event.sample (0, 1, 0), TP6Event.sample (1, 2, 0), TP6Event.sample (2, 2, 0),
               TP6Event.sample (3, 2, 0), TP6Event.sample (4, 3, 0)] = false :=
  (tp6_noisy_iff_three_run
    [TP6Event.sample (0, 1, 0), TP6Event.sample (1, 2, 0), TP6Event.sample (2, 2, 0),
     TP6Event.sample (3, 2, 0), TP6Event.sample (4, 3, 0)]
    [(0, 1, 0), (1, 2, 0), (2, 2, 0), (3, 2, 0), (4, 3, 0)] rfl).mpr
    ⟨1, by norm_num, by decide, by decide⟩
